import Mathlib

/-!
# View tree runtime of nativeui (Windows backend)

A shallow embedding of `nativeui/win/container_win.cc` and
`nativeui/win/window_win.cc`.

* Views are identified by their address (a natural number); a null pointer is
  `none`.
* Calls into collaborators that live outside the two files (child views, the
  delegate hooks, the painter, the platform) are recorded, in call order, in
  an event log returned next to the new state.
* Pixel coordinates are mathematical integers; sizes are natural numbers, as
  the geometry value types never hold a negative width or height.
-/

namespace nu

/-! ## Geometry value types -/

/-- Modelled from the spec: the geometry value type `Point` (an integer pixel
position), which is not part of the two source files. -/
structure Point where
  x : Int
  y : Int
  deriving DecidableEq, Repr

/-- Modelled from the spec: the geometry value type `Vector2d` (an integer
pixel offset), which is not part of the two source files. -/
structure Vector2d where
  x : Int
  y : Int
  deriving DecidableEq, Repr

/-- Modelled from the spec: the geometry value type `Size`; width and height
are never negative. -/
structure Size where
  width : Nat
  height : Nat
  deriving DecidableEq, Repr

/-- Modelled from the spec: the geometry value type `Rect`, an origin and a
size, written `[x, y, width, height]` in the spec. -/
structure Rect where
  x : Int
  y : Int
  width : Nat
  height : Nat
  deriving DecidableEq, Repr

/-- Modelled from the spec: `Size::IsEmpty`, zero width or zero height. -/
def Size.IsEmpty (s : Size) : Bool :=
  s.width == 0 || s.height == 0

/-- Modelled from the spec: `Vector2d - Vector2d`, componentwise. -/
def Vector2d.sub (a b : Vector2d) : Vector2d :=
  ⟨a.x - b.x, a.y - b.y⟩

/-- Modelled from the spec: `Vector2d + Vector2d`, componentwise. -/
def Vector2d.add (a b : Vector2d) : Vector2d :=
  ⟨a.x + b.x, a.y + b.y⟩

/-- Modelled from the spec: `Rect::size`. -/
def Rect.size (r : Rect) : Size :=
  ⟨r.width, r.height⟩

/-- Modelled from the spec: `Rect::right`, one past the last column. -/
def Rect.right (r : Rect) : Int :=
  r.x + r.width

/-- Modelled from the spec: `Rect::bottom`, one past the last row. -/
def Rect.bottom (r : Rect) : Int :=
  r.y + r.height

/-- Modelled from the spec: `Rect::IsEmpty`, the size is empty. -/
def Rect.IsEmpty (r : Rect) : Bool :=
  r.size.IsEmpty

/-- Modelled from the spec: `Rect::OffsetFromOrigin`, the origin as an
offset. -/
def Rect.OffsetFromOrigin (r : Rect) : Vector2d :=
  ⟨r.x, r.y⟩

/-- Modelled from the spec: `Rect - Vector2d`, the rectangle moved back by the
offset; the size is kept. -/
def Rect.sub (r : Rect) (v : Vector2d) : Rect :=
  ⟨r.x - v.x, r.y - v.y, r.width, r.height⟩

/-- Modelled from the spec: `Rect::Contains(point)`; the rectangle is
half-open, so `[50,0,50,50]` holds `(60,10)` and `[0,0,50,50]` does not. -/
def Rect.Contains (r : Rect) (p : Point) : Bool :=
  decide (r.x ≤ p.x) && decide (p.x < r.right) &&
    decide (r.y ≤ p.y) && decide (p.y < r.bottom)

/-- Modelled from the spec: `Rect::Intersect`; an empty operand or disjoint
operands give the empty rectangle `[0,0,0,0]`. -/
def Rect.Intersect (r o : Rect) : Rect :=
  if r.IsEmpty || o.IsEmpty then ⟨0, 0, 0, 0⟩
  else
    let rx := max r.x o.x
    let ry := max r.y o.y
    let rr := min r.right o.right
    let rb := min r.bottom o.bottom
    if rr ≤ rx ∨ rb ≤ ry then ⟨0, 0, 0, 0⟩
    else ⟨rx, ry, (rr - rx).toNat, (rb - ry).toNat⟩

/-! ## View nodes seen from their container -/

/-- Modelled from the spec: the part of a child `ViewImpl` that
`ContainerImpl` reads through `is_visible()`, `size_allocation()` and
`GetClippedRect()`, and the answers of its virtual wheel and click hooks.
`ptr` is the address of the node. -/
structure ViewImpl where
  ptr : Nat
  is_visible : Bool
  size_allocation : Rect
  clipped_rect : Rect
  wheel_result : Bool → Nat → Int → Point → Bool
  click_result : Nat → Nat → Point → Bool

/-- Modelled from the spec: `ViewImpl::GetClippedRect`, the bounds of the node
cut by the clip of its ancestors; the outcome is carried by the node. -/
def ViewImpl.GetClippedRect (v : ViewImpl) : Rect :=
  v.clipped_rect

/-- Modelled from the spec: the painting context `PainterWin`; only its
translation matters here. `origin` is the current painting origin and `saved`
the stack of origins pushed by `Save`. -/
structure PainterWin where
  origin : Vector2d
  saved : List Vector2d
  deriving DecidableEq, Repr

/-- Modelled from the spec: `PainterWin::Save`. -/
def PainterWin.Save (p : PainterWin) : PainterWin :=
  { p with saved := p.origin :: p.saved }

/-- Modelled from the spec: `PainterWin::Restore`. -/
def PainterWin.Restore (p : PainterWin) : PainterWin :=
  match p.saved with
  | [] => p
  | o :: rest => { origin := o, saved := rest }

/-- Modelled from the spec: `PainterWin::TranslatePixel`, which moves the
painting origin by the offset. -/
def PainterWin.TranslatePixel (p : PainterWin) (v : Vector2d) : PainterWin :=
  { p with origin := p.origin.add v }

/-- Modelled from the spec: where the painter puts a point that is drawn at
the local position `(x, y)`. -/
def PainterWin.observe (p : PainterWin) (x y : Int) : Point :=
  ⟨p.origin.x + x, p.origin.y + y⟩

/-- A call that leaves `ContainerImpl`: a virtual hook of a child (named by its
address) or a hook of the delegate. -/
inductive Event where
  | OnMouseEnter (child : Nat)
  | OnMouseLeave (child : Nat)
  | OnMouseMove (child : Nat) (flags : Nat) (point : Point)
  | OnMouseWheel (child : Nat) (vertical : Bool) (flags : Nat) (delta : Int)
      (point : Point)
  | OnMouseClick (child : Nat) (message : Nat) (flags : Nat) (point : Point)
  | Draw (child : Nat) (origin : Vector2d) (dirty : Rect)
  | BaseDraw (origin : Vector2d) (dirty : Rect)
  | OnDraw (origin : Vector2d) (dirty : Rect)
  | Layout (bounds : Rect)
  deriving DecidableEq, Repr

/-! ## ContainerImpl -/

/-- The state of a `ContainerImpl`: the allocation and visibility of its
`ViewImpl` base, the hovered child `hover_view_` (`none` is the null pointer)
and the children its delegate enumerates, in enumeration order. -/
structure ContainerImpl where
  size_allocation : Rect
  is_visible : Bool
  hover_view_ : Option Nat
  children : List ViewImpl

/-- The loop of `ContainerAdapter::ForEach`: the callback runs on the children
in order, threading the state `σ` it captures, until it answers `false`. -/
def ForEach {σ : Type} (callback : σ → ViewImpl → σ × Bool) :
    List ViewImpl → σ → σ
  | [], s => s
  | child :: rest, s =>
    if (callback s child).2 then ForEach callback rest (callback s child).1
    else (callback s child).1

/-- The loop of `ContainerAdapter::HasChild`: a comparison of addresses. -/
def HasChild : List ViewImpl → Nat → Bool
  | [], _ => false
  | c :: rest, child => if child = c.ptr then true else HasChild rest child

/-- The callback of `ContainerImpl::FindChildFromPoint`; the captured state is
`result`. -/
def FindChildFromPoint.callback (point : Point) (result : Option ViewImpl)
    (child : ViewImpl) : Option ViewImpl × Bool :=
  if !child.is_visible then (result, true)
  else if child.GetClippedRect.Contains point then (some child, false)
  else (result, true)

/-- The function `ContainerImpl::FindChildFromPoint`. -/
def ContainerImpl.FindChildFromPoint (c : ContainerImpl) (point : Point) :
    Option ViewImpl :=
  ForEach (FindChildFromPoint.callback point) c.children none

/-- The function `ContainerImpl::OnMouseMove`. -/
def ContainerImpl.OnMouseMove (c : ContainerImpl) (flags : Nat)
    (point : Point) : ContainerImpl × List Event :=
  let hover_view := (c.FindChildFromPoint point).map ViewImpl.ptr
  let leave : List Event :=
    match c.hover_view_ with
    | some old => if HasChild c.children old then [Event.OnMouseLeave old] else []
    | none => []
  let enter : List Event :=
    match hover_view with
    | some new => [Event.OnMouseEnter new]
    | none => []
  let changed : ContainerImpl × List Event :=
    if c.hover_view_ ≠ hover_view then
      ({ c with hover_view_ := hover_view }, leave ++ enter)
    else (c, [])
  match changed.1.hover_view_ with
  | some h => (changed.1, changed.2 ++ [Event.OnMouseMove h flags point])
  | none => changed

/-- The function `ContainerImpl::OnMouseLeave`. -/
def ContainerImpl.OnMouseLeave (c : ContainerImpl) :
    ContainerImpl × List Event :=
  match c.hover_view_ with
  | some old =>
    ({ c with hover_view_ := none },
      if HasChild c.children old then [Event.OnMouseLeave old] else [])
  | none => (c, [])

/-- The function `ContainerImpl::OnMouseWheel`. -/
def ContainerImpl.OnMouseWheel (c : ContainerImpl) (vertical : Bool)
    (flags : Nat) (delta : Int) (point : Point) :
    ContainerImpl × List Event × Bool :=
  match c.FindChildFromPoint point with
  | some child =>
    (c, [Event.OnMouseWheel child.ptr vertical flags delta point],
      child.wheel_result vertical flags delta point)
  | none => (c, [], false)

/-- The function `ContainerImpl::OnMouseClick`. -/
def ContainerImpl.OnMouseClick (c : ContainerImpl) (message : Nat)
    (flags : Nat) (point : Point) : ContainerImpl × List Event × Bool :=
  match c.FindChildFromPoint point with
  | some child =>
    (c, [Event.OnMouseClick child.ptr message flags point],
      child.click_result message flags point)
  | none => (c, [], false)

/-- Modelled from the spec: `ViewImpl::SizeAllocate` run on the base of a
container; it stores the new bounds. -/
def ViewImpl.SizeAllocate (c : ContainerImpl) (size_allocation : Rect) :
    ContainerImpl :=
  { c with size_allocation := size_allocation }

/-- Modelled from the spec: `ViewImpl::Draw` run on the base of a container;
the node draws itself, which is recorded as one `BaseDraw` call. -/
def ViewImpl.Draw (painter : PainterWin) (dirty : Rect) : List Event :=
  [Event.BaseDraw painter.origin dirty]

/-- The function `ContainerImpl::SizeAllocate`. The `Layout` hook of the
delegate is recorded with the bounds the container holds when the hook
runs. -/
def ContainerImpl.SizeAllocate (c : ContainerImpl) (size_allocation : Rect) :
    ContainerImpl × List Event :=
  let c1 := ViewImpl.SizeAllocate c size_allocation
  if !size_allocation.size.IsEmpty then (c1, [Event.Layout c1.size_allocation])
  else (c1, [])

/-- The function `ContainerImpl::DrawChild`. The virtual `Draw` of the child is
recorded with the painting origin it runs under and the dirty rectangle it is
given; the child is taken to hand the painter back as it got it. -/
def ContainerImpl.DrawChild (c : ContainerImpl) (child : ViewImpl)
    (painter : PainterWin) (dirty : Rect) : PainterWin × List Event :=
  if !child.is_visible then (painter, [])
  else
    let child_dirty :=
      (child.GetClippedRect.sub c.size_allocation.OffsetFromOrigin).Intersect dirty
    if child_dirty.IsEmpty then (painter, [])
    else
      let child_origin :=
        child.size_allocation.OffsetFromOrigin.sub c.size_allocation.OffsetFromOrigin
      let translated := (painter.Save).TranslatePixel child_origin
      (translated.Restore,
        [Event.Draw child.ptr translated.origin (child_dirty.sub child_origin)])

/-- The callback of `ContainerImpl::Draw`; the captured state is the painter
and the calls made so far. -/
def Draw.callback (c : ContainerImpl) (dirty : Rect)
    (s : PainterWin × List Event) (child : ViewImpl) :
    (PainterWin × List Event) × Bool :=
  (((c.DrawChild child s.1 dirty).1, s.2 ++ (c.DrawChild child s.1 dirty).2), true)

/-- The function `ContainerImpl::Draw`. The `OnDraw` hook of the delegate is
recorded as one call; it hands the painter back as it got it. -/
def ContainerImpl.Draw (c : ContainerImpl) (painter : PainterWin)
    (dirty : Rect) : PainterWin × List Event :=
  ForEach (Draw.callback c dirty) c.children
    (painter, ViewImpl.Draw painter dirty ++ [Event.OnDraw painter.origin dirty])

/-- The conversion `child_dirty - child_origin` of `ContainerImpl::DrawChild`,
applied to a single point: from the coordinates of the container to those of
the child. -/
def ContainerImpl.toChildLocal (c : ContainerImpl) (child : ViewImpl)
    (p : Point) : Point :=
  let child_origin :=
    child.size_allocation.OffsetFromOrigin.sub c.size_allocation.OffsetFromOrigin
  ⟨p.x - child_origin.x, p.y - child_origin.y⟩

/-- A pointer notification the container receives. -/
inductive MouseInput where
  | Move (flags : Nat) (point : Point)
  | Leave
  deriving DecidableEq, Repr

/-- One notification handled by the container. -/
def ContainerImpl.handle (c : ContainerImpl) :
    MouseInput → ContainerImpl × List Event
  | .Move flags point => c.OnMouseMove flags point
  | .Leave => c.OnMouseLeave

/-- A sequence of notifications handled in order; the calls made are
concatenated. -/
def ContainerImpl.run (c : ContainerImpl) :
    List MouseInput → ContainerImpl × List Event
  | [] => (c, [])
  | i :: rest =>
    (((c.handle i).1.run rest).1, (c.handle i).2 ++ ((c.handle i).1.run rest).2)

/-- What a child is told about the pointer. -/
inductive HoverCall where
  | enter
  | move
  | leave
  deriving DecidableEq, Repr

/-- The pointer calls of a log that go to the child at address `x`, in
order. -/
def hoverCallsOf (x : Nat) : List Event → List HoverCall
  | [] => []
  | Event.OnMouseEnter v :: rest =>
    if v = x then HoverCall.enter :: hoverCallsOf x rest else hoverCallsOf x rest
  | Event.OnMouseLeave v :: rest =>
    if v = x then HoverCall.leave :: hoverCallsOf x rest else hoverCallsOf x rest
  | Event.OnMouseMove v _ _ :: rest =>
    if v = x then HoverCall.move :: hoverCallsOf x rest else hoverCallsOf x rest
  | _ :: rest => hoverCallsOf x rest

/-- The shape `(enter, move*, leave)*` with a last group that may be
unfinished. `inside` tells whether an enter is pending its leave. -/
def hoverProtocol : Bool → List HoverCall → Bool
  | _, [] => true
  | inside, HoverCall.enter :: rest => !inside && hoverProtocol true rest
  | inside, HoverCall.move :: rest => inside && hoverProtocol true rest
  | inside, HoverCall.leave :: rest => inside && hoverProtocol false rest

/-- The hover discipline of a whole log, over all children at once: `h` is the
child that has been entered and not yet left. An enter needs `h` to be empty,
a leave or a move needs its receiver to be `h`. -/
def hoverLogOk : Option Nat → List Event → Bool
  | _, [] => true
  | h, Event.OnMouseEnter v :: rest => h.isNone && hoverLogOk (some v) rest
  | h, Event.OnMouseLeave v :: rest => decide (h = some v) && hoverLogOk none rest
  | h, Event.OnMouseMove v _ _ :: rest => decide (h = some v) && hoverLogOk h rest
  | h, _ :: rest => hoverLogOk h rest

/-- Modelled from the spec: a container fresh from its constructor. The
constructor in the source sets the delegate only; `hover_view_` starts as the
null pointer (state `NoHover` of the spec) through its member initialiser,
which is in the header. -/
def ContainerImpl.create (size_allocation : Rect) (is_visible : Bool)
    (children : List ViewImpl) : ContainerImpl :=
  { size_allocation := size_allocation, is_visible := is_visible,
    hover_view_ := none, children := children }

/-! ## The view tree -/

/-- A tree of views: a leaf view, or a container with the children its
delegate enumerates. Each node carries its address and its visibility
flag. -/
inductive View where
  | leaf (ptr : Nat) (is_visible : Bool)
  | container (ptr : Nat) (is_visible : Bool) (children : List View)

mutual
/-- The virtual `SetVisible`. On a leaf it is `ViewImpl::SetVisible`
(modelled from the spec: it sets the visibility flag of the node); on a
container it is `ContainerImpl::SetVisible`, the base call followed by the
loop over the children. -/
def View.SetVisible : View → Bool → View
  | .leaf ptr _, visible => .leaf ptr visible
  | .container ptr _ children, visible =>
    .container ptr visible (SetVisible.forEach children visible)
/-- The loop `delegate_->ForEach` of `ContainerImpl::SetVisible`; its callback
always answers `true`, so every child is visited. -/
def SetVisible.forEach : List View → Bool → List View
  | [], _ => []
  | child :: rest, visible =>
    child.SetVisible visible :: SetVisible.forEach rest visible
end

mutual
/-- The visibility every node of a tree reports, the root first. -/
def View.reports : View → List Bool
  | .leaf _ is_visible => [is_visible]
  | .container _ is_visible children => is_visible :: View.reportsAll children
/-- The visibility every node of a list of trees reports. -/
def View.reportsAll : List View → List Bool
  | [] => []
  | child :: rest => child.reports ++ View.reportsAll rest
end

/-- The visibility the root of a tree reports (`is_visible()`). -/
def View.is_visible : View → Bool
  | .leaf _ v => v
  | .container _ v _ => v

/-! ## TopLevelWindow -/

/-- Who receives a call made by the window: the content view of the delegate
(`delegate_->GetContentView()->view()`, which routes by hit-testing) or the
view at a given address. -/
inductive Target where
  | ContentView
  | View (ptr : Nat)
  deriving DecidableEq, Repr

/-- A virtual hook of a view, with its arguments. -/
inductive Call where
  | OnMouseEnter
  | OnMouseLeave
  | OnMouseMove (flags : Nat) (point : Point)
  | OnMouseClick (message : Nat) (flags : Nat) (point : Point)
  | OnCaptureLost
  deriving DecidableEq, Repr

/-- A call that leaves `TopLevelWindow`: a hook of a view, a platform call, or
a callback of the delegate. -/
inductive WinEvent where
  | Send (target : Target) (call : Call)
  | TrackMouse (enable : Bool)
  | PlatformSetCapture (hwnd : Nat)
  | PlatformReleaseCapture
  | ShouldCloseRun
  | OnCloseEmit
  | SetMsgHandled (handled : Bool)
  deriving DecidableEq, Repr

/-- The state of a `TopLevelWindow` and of the platform around it.
`capture_view_` and `mouse_in_window_` are the members of the class;
`should_close` is the callback of the delegate (`none` when it is null, else
the answer `Run` gives); `msg_handled` is the flag of the message map that
`SetMsgHandled` writes; `platform_capture` is the window `::GetCapture()`
returns (`none` when no window holds the capture). -/
structure TopLevelWindow where
  hwnd : Nat
  capture_view_ : Option Nat
  mouse_in_window_ : Bool
  should_close : Option Bool
  msg_handled : Bool
  platform_capture : Option Nat
  deriving DecidableEq, Repr

/-- Modelled from the spec: the platform constant `WM_LBUTTONUP`, the message
of a primary-button release. -/
def WM_LBUTTONUP : Nat := 0x0202

/-- Modelled from the spec: the platform constant `WM_LBUTTONDOWN`. -/
def WM_LBUTTONDOWN : Nat := 0x0201

/-- Modelled from the spec: a 16-bit word read as a signed number, as the
platform does when it unpacks a point from a message parameter. -/
def signedWord (n : Nat) : Int :=
  if n % 65536 < 32768 then (n % 65536 : Nat) else ((n % 65536 : Nat) : Int) - 65536

/-- Modelled from the spec: `CR_GET_X_LPARAM`, the low word of the message
parameter. -/
def CR_GET_X_LPARAM (l_param : Nat) : Int :=
  signedWord (l_param % 65536)

/-- Modelled from the spec: `CR_GET_Y_LPARAM`, the high word of the message
parameter. -/
def CR_GET_Y_LPARAM (l_param : Nat) : Int :=
  signedWord (l_param / 65536 % 65536)

/-- The function `TopLevelWindow::SetCapture`. The platform call
`::SetCapture(hwnd())` makes this window the holder of the capture. -/
def TopLevelWindow.SetCapture (w : TopLevelWindow) (view : Nat) :
    TopLevelWindow × List WinEvent :=
  ({ w with capture_view_ := some view, platform_capture := some w.hwnd },
    [WinEvent.PlatformSetCapture w.hwnd])

/-- The function `TopLevelWindow::ReleaseCapture`. The platform call
`::ReleaseCapture()` leaves no window holding the capture; the capture-changed
notification that follows is a step of its own (`OnCaptureChanged`). -/
def TopLevelWindow.ReleaseCapture (w : TopLevelWindow) :
    TopLevelWindow × List WinEvent :=
  if w.platform_capture = some w.hwnd then
    ({ w with platform_capture := none }, [WinEvent.PlatformReleaseCapture])
  else (w, [])

/-- The function `TopLevelWindow::OnCaptureChanged`. -/
def TopLevelWindow.OnCaptureChanged (w : TopLevelWindow) (_window : Nat) :
    TopLevelWindow × List WinEvent :=
  match w.capture_view_ with
  | some v =>
    ({ w with capture_view_ := none }, [WinEvent.Send (Target.View v) Call.OnCaptureLost])
  | none => (w, [])

/-- The function `TopLevelWindow::OnClose`. `should_close.Run()` is only
evaluated when the callback is not null. -/
def TopLevelWindow.OnClose (w : TopLevelWindow) :
    TopLevelWindow × List WinEvent :=
  let asked : List WinEvent :=
    if w.should_close.isNone then [] else [WinEvent.ShouldCloseRun]
  if w.should_close.isNone || w.should_close.getD false then
    ({ w with msg_handled := false },
      asked ++ [WinEvent.OnCloseEmit, WinEvent.SetMsgHandled false])
  else (w, asked)

/-- The function `TopLevelWindow::OnMouseMove`. -/
def TopLevelWindow.OnMouseMove (w : TopLevelWindow) (flags : Nat)
    (point : Point) : TopLevelWindow × List WinEvent :=
  let entered : TopLevelWindow × List WinEvent :=
    if !w.mouse_in_window_ then
      ({ w with mouse_in_window_ := true },
        [WinEvent.Send Target.ContentView Call.OnMouseEnter, WinEvent.TrackMouse true])
    else (w, [])
  match entered.1.capture_view_ with
  | some v =>
    (entered.1, entered.2 ++ [WinEvent.Send (Target.View v) (Call.OnMouseMove flags point)])
  | none =>
    (entered.1,
      entered.2 ++ [WinEvent.Send Target.ContentView (Call.OnMouseMove flags point)])

/-- The function `TopLevelWindow::OnMouseLeave`. -/
def TopLevelWindow.OnMouseLeave (w : TopLevelWindow) :
    TopLevelWindow × List WinEvent :=
  ({ w with mouse_in_window_ := false },
    [WinEvent.TrackMouse false, WinEvent.Send Target.ContentView Call.OnMouseLeave])

/-- The function `TopLevelWindow::OnMouseClick`. `static_cast<UINT>(w_param)`
keeps the low 32 bits. -/
def TopLevelWindow.OnMouseClick (w : TopLevelWindow) (message : Nat)
    (w_param : Nat) (l_param : Nat) : TopLevelWindow × List WinEvent :=
  let click : List WinEvent :=
    [WinEvent.Send Target.ContentView
      (Call.OnMouseClick message (w_param % 2 ^ 32)
        ⟨CR_GET_X_LPARAM l_param, CR_GET_Y_LPARAM l_param⟩)]
  if message = WM_LBUTTONUP then
    (w.ReleaseCapture.1, click ++ w.ReleaseCapture.2)
  else (w, click)

/-- A pointer notification the window receives. -/
inductive WinInput where
  | Move (flags : Nat) (point : Point)
  | Click (message : Nat) (w_param : Nat) (l_param : Nat)
  deriving DecidableEq, Repr

/-- One pointer notification handled by the window. -/
def TopLevelWindow.handle (w : TopLevelWindow) :
    WinInput → TopLevelWindow × List WinEvent
  | .Move flags point => w.OnMouseMove flags point
  | .Click message w_param l_param => w.OnMouseClick message w_param l_param

/-- A sequence of pointer notifications handled in order, with the calls each
of them makes. -/
def TopLevelWindow.run (w : TopLevelWindow) :
    List WinInput → List (WinInput × List WinEvent)
  | [] => []
  | i :: rest => (i, (w.handle i).2) :: (w.handle i).1.run rest

/-- The window after a sequence of pointer notifications. -/
def TopLevelWindow.after (w : TopLevelWindow) : List WinInput → TopLevelWindow
  | [] => w
  | i :: rest => (w.handle i).1.after rest

/-! ## The scenes of the spec -/

/-- Child A of the scenario, at `[0,0,50,50]`, address 1. -/
def viewA : ViewImpl :=
  { ptr := 1, is_visible := true, size_allocation := ⟨0, 0, 50, 50⟩,
    clipped_rect := ⟨0, 0, 50, 50⟩, wheel_result := fun _ _ _ _ => false,
    click_result := fun _ _ _ => true }

/-- Child B of the scenario, at `[50,0,50,50]`, address 2. -/
def viewB : ViewImpl :=
  { ptr := 2, is_visible := true, size_allocation := ⟨50, 0, 50, 50⟩,
    clipped_rect := ⟨50, 0, 50, 50⟩, wheel_result := fun _ _ _ _ => true,
    click_result := fun _ _ _ => false }

/-- Container C of the scenario, with children A then B, nothing hovered. -/
def sceneC : ContainerImpl :=
  ContainerImpl.create ⟨0, 0, 100, 50⟩ true [viewA, viewB]

/-- Container C while a view at address 9, which is not one of its children
any more, is still recorded as hovered. -/
def sceneStale : ContainerImpl :=
  { sceneC with hover_view_ := some 9 }

/-- A child allocated at `[120,10,50,50]` in window coordinates, address 1,
inside the container `nestedC`. -/
def nestedChild : ViewImpl :=
  { ptr := 1, is_visible := true, size_allocation := ⟨120, 10, 50, 50⟩,
    clipped_rect := ⟨120, 10, 50, 50⟩, wheel_result := fun _ _ _ _ => false,
    click_result := fun _ _ _ => false }

/-- A container allocated at `[100,0,200,200]`, away from the origin of the
window, with the single child `nestedChild`. -/
def nestedC : ContainerImpl :=
  ContainerImpl.create ⟨100, 0, 200, 200⟩ true [nestedChild]

/-- A window with handle 1, the pointer inside it, no capture target and no
holder of the platform capture. -/
def idleWindow : TopLevelWindow :=
  { hwnd := 1, capture_view_ := none, mouse_in_window_ := true, should_close := none,
    msg_handled := true, platform_capture := none }

/-- Modelled from the spec: the platform delivers the capture-changed
notification that results from a platform release. `r` is the outcome of a
call on the window; when the call issued `::ReleaseCapture()` the window is
handed `OnCaptureChanged`, else nothing is delivered. -/
def deliverCaptureChanged (r : TopLevelWindow × List WinEvent) : TopLevelWindow :=
  if WinEvent.PlatformReleaseCapture ∈ r.2 then (r.1.OnCaptureChanged r.1.hwnd).1
  else r.1

/-- The calls a captured window makes on one notification. -/
def capturedShape (V : Nat) (e : WinInput × List WinEvent) : Prop :=
  match e.1 with
  | .Move flags point =>
    e.2 = [WinEvent.Send (Target.View V) (Call.OnMouseMove flags point)] ∨
      e.2 = [WinEvent.Send Target.ContentView Call.OnMouseEnter, WinEvent.TrackMouse true,
        WinEvent.Send (Target.View V) (Call.OnMouseMove flags point)]
  | .Click message w_param l_param =>
    e.2 = [WinEvent.Send Target.ContentView
        (Call.OnMouseClick message (w_param % 2 ^ 32)
          ⟨CR_GET_X_LPARAM l_param, CR_GET_Y_LPARAM l_param⟩)] ∨
      e.2 = [WinEvent.Send Target.ContentView
        (Call.OnMouseClick message (w_param % 2 ^ 32)
          ⟨CR_GET_X_LPARAM l_param, CR_GET_Y_LPARAM l_param⟩),
        WinEvent.PlatformReleaseCapture]

/-! ## Hit-testing -/

/-- The test a child passes to be hit: it is visible and its clipped rect
holds the point. -/
def hit (point : Point) (child : ViewImpl) : Bool :=
  child.is_visible && child.GetClippedRect.Contains point

theorem ForEach_find (point : Point) (cs : List ViewImpl) (r : Option ViewImpl) :
    ForEach (FindChildFromPoint.callback point) cs r =
      (match cs.find? (hit point) with
       | some ch => some ch
       | none => r) := by
  induction cs generalizing r with
  | nil => simp [ForEach]
  | cons c rest ih =>
    by_cases hv : c.is_visible = true
    · by_cases hc : c.GetClippedRect.Contains point = true
      · simp [ForEach, FindChildFromPoint.callback, hit, hv, hc, List.find?]
      · simp [ForEach, FindChildFromPoint.callback, hit, hv, hc, List.find?, ih]
    · simp [ForEach, FindChildFromPoint.callback, hit, hv, List.find?, ih]

theorem FindChildFromPoint_eq_find (c : ContainerImpl) (point : Point) :
    c.FindChildFromPoint point = c.children.find? (hit point) := by
  unfold ContainerImpl.FindChildFromPoint
  rw [ForEach_find]
  cases c.children.find? (hit point) <;> rfl

theorem HasChild_of_mem (cs : List ViewImpl) (ch : ViewImpl) (h : ch ∈ cs) :
    HasChild cs ch.ptr = true := by
  induction cs with
  | nil => cases h
  | cons c rest ih =>
    rcases List.mem_cons.mp h with rfl | h'
    · simp [HasChild]
    · by_cases e : ch.ptr = c.ptr
      · simp [HasChild, e]
      · simp [HasChild, e, ih h']

theorem HasChild_of_found (c : ContainerImpl) (point : Point) (ch : ViewImpl)
    (h : c.FindChildFromPoint point = some ch) : HasChild c.children ch.ptr = true := by
  rw [FindChildFromPoint_eq_find] at h
  exact HasChild_of_mem _ _ (List.mem_of_find?_eq_some h)

theorem find_hit_filter_visible (point : Point) (cs : List ViewImpl) :
    (cs.filter (fun ch => ch.is_visible)).find? (hit point) = cs.find? (hit point) := by
  induction cs with
  | nil => rfl
  | cons c rest ih =>
    by_cases hv : c.is_visible = true
    · by_cases hc : c.GetClippedRect.Contains point = true
      · simp [List.filter, List.find?, hit, hv, hc]
      · simpa [List.filter, List.find?, hit, hv, hc] using ih
    · simpa [List.filter, List.find?, hit, hv] using ih

/-- C5: `ContainerImpl::OnMouseWheel` and `ContainerImpl::OnMouseClick` send
the event to the first child, in enumeration order, that is visible and whose
clipped rect holds the point, and return the answer of that child; with no
such child they call nobody and return false. The container, its hover state
included, is handed back unchanged; the calls and the answer are the same
whatever the hover state is, and the same as when the invisible children are
taken out of the container. -/
theorem C5_wheel_click_first_visible_hit (c : ContainerImpl) (vertical : Bool)
    (message flags : Nat) (delta : Int) (point : Point) (hover : Option Nat) :
    c.OnMouseWheel vertical flags delta point =
        (match c.children.find? (hit point) with
         | some ch =>
           (c, [Event.OnMouseWheel ch.ptr vertical flags delta point],
             ch.wheel_result vertical flags delta point)
         | none => (c, [], false)) ∧
      c.OnMouseClick message flags point =
        (match c.children.find? (hit point) with
         | some ch =>
           (c, [Event.OnMouseClick ch.ptr message flags point],
             ch.click_result message flags point)
         | none => (c, [], false)) ∧
      ({ c with hover_view_ := hover }.OnMouseWheel vertical flags delta point).2 =
        (c.OnMouseWheel vertical flags delta point).2 ∧
      ({ c with hover_view_ := hover }.OnMouseClick message flags point).2 =
        (c.OnMouseClick message flags point).2 ∧
      ({ c with children := c.children.filter (fun ch => ch.is_visible) }.OnMouseWheel
          vertical flags delta point).2 = (c.OnMouseWheel vertical flags delta point).2 ∧
      ({ c with children := c.children.filter (fun ch => ch.is_visible) }.OnMouseClick
          message flags point).2 = (c.OnMouseClick message flags point).2 := by
  refine ⟨?_, ?_, ?_, ?_, ?_, ?_⟩
  · simp only [ContainerImpl.OnMouseWheel, FindChildFromPoint_eq_find]
  · simp only [ContainerImpl.OnMouseClick, FindChildFromPoint_eq_find]
  · simp only [ContainerImpl.OnMouseWheel, FindChildFromPoint_eq_find]
    cases c.children.find? (hit point) <;> rfl
  · simp only [ContainerImpl.OnMouseClick, FindChildFromPoint_eq_find]
    cases c.children.find? (hit point) <;> rfl
  · simp only [ContainerImpl.OnMouseWheel, FindChildFromPoint_eq_find,
      find_hit_filter_visible]
    cases c.children.find? (hit point) <;> rfl
  · simp only [ContainerImpl.OnMouseClick, FindChildFromPoint_eq_find,
      find_hit_filter_visible]
    cases c.children.find? (hit point) <;> rfl

/-- C4: when the hovered child `x` is no longer enumerated by the delegate,
`ContainerImpl::OnMouseLeave` calls nobody, every `ContainerImpl::OnMouseMove`
is hover-changing and sends no leave to `x` and does not keep `x` hovered, and
`ContainerImpl::OnMouseLeave` leaves the hover state empty, on this container
and on any other container `d`, member or not. -/
theorem C4_removed_hover_gets_no_leave (c d : ContainerImpl) (x : Nat)
    (flags : Nat) (point : Point)
    (hover : c.hover_view_ = some x) (gone : HasChild c.children x = false) :
    c.OnMouseLeave.2 = [] ∧
      c.OnMouseLeave.1.hover_view_ = none ∧
      d.OnMouseLeave.1.hover_view_ = none ∧
      c.hover_view_ ≠ (c.FindChildFromPoint point).map ViewImpl.ptr ∧
      Event.OnMouseLeave x ∉ (c.OnMouseMove flags point).2 ∧
      (c.OnMouseMove flags point).1.hover_view_ ≠ some x := by
  have hne : ∀ ch, c.FindChildFromPoint point = some ch → ch.ptr ≠ x := by
    intro ch hch e
    have := HasChild_of_found c point ch hch
    rw [e, gone] at this
    cases this
  refine ⟨?_, ?_, ?_, ?_, ?_, ?_⟩
  · simp [ContainerImpl.OnMouseLeave, hover, gone]
  · simp [ContainerImpl.OnMouseLeave, hover]
  · unfold ContainerImpl.OnMouseLeave
    cases hd : d.hover_view_ with
    | none => simpa using hd
    | some _ => rfl
  · rw [hover]
    cases hf : c.FindChildFromPoint point with
    | none => simp
    | some ch =>
      have := hne ch hf
      simp [Ne.symm this]
  · cases hf : c.FindChildFromPoint point with
    | none => simp [ContainerImpl.OnMouseMove, hover, gone, hf]
    | some ch =>
      have := hne ch hf
      simp [ContainerImpl.OnMouseMove, hover, gone, hf, Ne.symm this]
  · cases hf : c.FindChildFromPoint point with
    | none => simp [ContainerImpl.OnMouseMove, hover, gone, hf]
    | some ch =>
      have := hne ch hf
      simp [ContainerImpl.OnMouseMove, hover, gone, hf, Ne.symm this, this]

/-- Witness of C4: container C with a stale hovered view at address 9, and a
move to `(10,10)`. -/
theorem C4_removed_hover_gets_no_leave_witness :
    sceneStale.hover_view_ = some 9 ∧ HasChild sceneStale.children 9 = false ∧
      (sceneStale.OnMouseLeave.2 = [] ∧
        sceneStale.OnMouseLeave.1.hover_view_ = none ∧
        sceneC.OnMouseLeave.1.hover_view_ = none ∧
        sceneStale.hover_view_ ≠ (sceneStale.FindChildFromPoint ⟨10, 10⟩).map ViewImpl.ptr ∧
        Event.OnMouseLeave 9 ∉ (sceneStale.OnMouseMove 0 ⟨10, 10⟩).2 ∧
        (sceneStale.OnMouseMove 0 ⟨10, 10⟩).1.hover_view_ ≠ some 9) :=
  ⟨rfl, by decide,
    C4_removed_hover_gets_no_leave sceneStale sceneC 9 0 ⟨10, 10⟩ rfl (by decide)⟩

/-- C10: `ContainerImpl::SizeAllocate` stores the rectangle it is given and
changes nothing else of the container; it calls the `Layout` hook of the
delegate exactly once when width and height are both non-zero and not at all
when one of them is zero, and the hook runs with the new bounds stored. -/
theorem C10_size_allocate_layout (c : ContainerImpl) (r : Rect) :
    (c.SizeAllocate r).1 = { c with size_allocation := r } ∧
      (c.SizeAllocate r).2 =
        (if r.width = 0 ∨ r.height = 0 then [] else [Event.Layout r]) := by
  unfold ContainerImpl.SizeAllocate ViewImpl.SizeAllocate
  by_cases hw : r.width = 0
  · simp [Size.IsEmpty, Rect.size, hw]
  · by_cases hh : r.height = 0
    · simp [Size.IsEmpty, Rect.size, hh]
    · simp [Size.IsEmpty, Rect.size, hw, hh]

/-! ## Visibility -/

mutual
theorem reports_SetVisible : ∀ (t : View) (v : Bool),
    (t.SetVisible v).reports = List.replicate t.reports.length v
  | .leaf _ _, v => by simp [View.SetVisible, View.reports]
  | .container _ _ cs, v => by
    simp only [View.SetVisible, View.reports, List.length_cons, List.replicate_succ]
    rw [reportsAll_forEach cs v]
theorem reportsAll_forEach : ∀ (cs : List View) (v : Bool),
    View.reportsAll (SetVisible.forEach cs v) =
      List.replicate (View.reportsAll cs).length v
  | [], v => by simp [SetVisible.forEach, View.reportsAll]
  | c :: rest, v => by
    simp only [SetVisible.forEach, View.reportsAll, List.length_append, List.replicate_add]
    rw [reports_SetVisible c v, reportsAll_forEach rest v]
end

/-- C6: after `SetVisible(v)` on a container, the container and every
descendant, at any depth, report visibility `v`, whatever they reported
before: the reports of the tree are one `v` per node. The same holds for any
tree `t`. -/
theorem C6_set_visible_reaches_every_descendant (ptr : Nat) (before : Bool)
    (children : List View) (t : View) (v : Bool) :
    ((View.container ptr before children).SetVisible v).reports =
        List.replicate (View.container ptr before children).reports.length v ∧
      ((View.container ptr before children).SetVisible v).reports.all (fun b => b == v) = true ∧
      ((View.container ptr before children).SetVisible v).is_visible = v ∧
      (t.SetVisible v).reports = List.replicate t.reports.length v := by
  refine ⟨reports_SetVisible _ v, ?_, ?_, reports_SetVisible t v⟩
  · rw [reports_SetVisible]
    simp [List.all_eq_true]
  · simp [View.SetVisible, View.is_visible]

/-! ## Close requests -/

/-- C8 as the spec words it fails: with no `should_close` callback the close is
allowed, the notification is sent, and the message ends up marked as not
handled although it was marked handled before; with a declining callback the
message stays marked as handled. -/
theorem C8_counterexample :
    (TopLevelWindow.OnClose ⟨1, none, false, none, true, none⟩).2 =
        [WinEvent.OnCloseEmit, WinEvent.SetMsgHandled false] ∧
      (TopLevelWindow.OnClose ⟨1, none, false, none, true, none⟩).1.msg_handled = false ∧
      (TopLevelWindow.OnClose ⟨1, none, false, some false, true, none⟩).2 =
        [WinEvent.ShouldCloseRun] ∧
      (TopLevelWindow.OnClose ⟨1, none, false, some false, true, none⟩).1.msg_handled = true := by
  decide

/-- C8, amended: `TopLevelWindow::OnClose` emits the close notification if and
only if `should_close` is null or answers true; in that case it calls
`SetMsgHandled(FALSE)`, so the message ends up marked as not handled; when the
callback declines, nothing is emitted, `SetMsgHandled` is not called and the
window, its handled flag included, is left as it was. -/
theorem C8_close_request (w : TopLevelWindow) :
    (WinEvent.OnCloseEmit ∈ w.OnClose.2 ↔
        (w.should_close = none ∨ w.should_close = some true)) ∧
      w.OnClose.1.msg_handled =
        (if w.should_close = some false then w.msg_handled else false) ∧
      (WinEvent.SetMsgHandled false ∈ w.OnClose.2 ↔ w.should_close ≠ some false) ∧
      WinEvent.SetMsgHandled true ∉ w.OnClose.2 ∧
      (if w.should_close = some false then w.OnClose = (w, [WinEvent.ShouldCloseRun])
       else w.OnClose.1 = { w with msg_handled := false }) := by
  unfold TopLevelWindow.OnClose
  rcases h : w.should_close with _ | _ | _ <;> simp [h]

/-! ## Hover tracking, painting and capture -/

theorem OnMouseMove_hover (c : ContainerImpl) (flags : Nat) (point : Point) :
    (c.OnMouseMove flags point).1.hover_view_ =
      (c.FindChildFromPoint point).map ViewImpl.ptr := by
  unfold ContainerImpl.OnMouseMove
  generalize (c.FindChildFromPoint point).map ViewImpl.ptr = found
  by_cases e : c.hover_view_ = found
  · subst e
    simp
    cases h : c.hover_view_ <;> simp [h]
  · simp [e]
    cases found <;> simp

theorem OnMouseMove_children (c : ContainerImpl) (flags : Nat) (point : Point) :
    (c.OnMouseMove flags point).1.children = c.children := by
  unfold ContainerImpl.OnMouseMove
  generalize (c.FindChildFromPoint point).map ViewImpl.ptr = found
  by_cases e : c.hover_view_ = found
  · subst e
    simp
    cases h : c.hover_view_ <;> simp [h]
  · simp [e]
    cases found <;> simp

theorem OnMouseMove_log (c : ContainerImpl) (flags : Nat) (point : Point) :
    (c.OnMouseMove flags point).2 =
      (if c.hover_view_ = (c.FindChildFromPoint point).map ViewImpl.ptr then []
       else
        (match c.hover_view_ with
          | some old => if HasChild c.children old then [Event.OnMouseLeave old] else []
          | none => []) ++
        (match (c.FindChildFromPoint point).map ViewImpl.ptr with
          | some new => [Event.OnMouseEnter new]
          | none => [])) ++
      (match (c.FindChildFromPoint point).map ViewImpl.ptr with
        | some h => [Event.OnMouseMove h flags point]
        | none => []) := by
  unfold ContainerImpl.OnMouseMove
  generalize (c.FindChildFromPoint point).map ViewImpl.ptr = found
  by_cases e : c.hover_view_ = found
  · subst e
    simp
    cases h : c.hover_view_ <;> simp [h]
  · simp [e]
    cases found <;> simp

theorem OnMouseLeave_hover (c : ContainerImpl) : c.OnMouseLeave.1.hover_view_ = none := by
  unfold ContainerImpl.OnMouseLeave
  cases h : c.hover_view_ with
  | none => simpa using h
  | some _ => rfl

theorem OnMouseLeave_children (c : ContainerImpl) :
    c.OnMouseLeave.1.children = c.children := by
  unfold ContainerImpl.OnMouseLeave
  cases c.hover_view_ <;> rfl

theorem handle_children (c : ContainerImpl) (i : MouseInput) :
    (c.handle i).1.children = c.children := by
  cases i with
  | Leave => exact OnMouseLeave_children c
  | Move flags point => exact OnMouseMove_children c flags point

theorem handle_hover_member (c : ContainerImpl) (i : MouseInput) (h : Nat)
    (hh : (c.handle i).1.hover_view_ = some h) :
    HasChild (c.handle i).1.children h = true := by
  rw [handle_children]
  cases i with
  | Leave =>
    simp only [ContainerImpl.handle, OnMouseLeave_hover] at hh
    cases hh
  | Move flags point =>
    simp only [ContainerImpl.handle, OnMouseMove_hover] at hh
    cases hf : c.FindChildFromPoint point with
    | none => rw [hf] at hh; cases hh
    | some ch =>
      rw [hf] at hh
      simp only [Option.map_some', Option.some.injEq] at hh
      rw [← hh]
      exact HasChild_of_found c point ch hf

theorem hoverLogOk_step (c : ContainerImpl) (i : MouseInput) (rest : List Event)
    (inv : ∀ h, c.hover_view_ = some h → HasChild c.children h = true) :
    hoverLogOk c.hover_view_ ((c.handle i).2 ++ rest) =
      hoverLogOk (c.handle i).1.hover_view_ rest := by
  cases i with
  | Leave =>
    simp only [ContainerImpl.handle, OnMouseLeave_hover]
    unfold ContainerImpl.OnMouseLeave
    cases hc : c.hover_view_ with
    | none => simp
    | some old => simp [inv old hc, hoverLogOk]
  | Move flags point =>
    simp only [ContainerImpl.handle, OnMouseMove_hover, OnMouseMove_log]
    generalize (c.FindChildFromPoint point).map ViewImpl.ptr = found
    cases hc : c.hover_view_ with
    | none =>
      cases found with
      | none => simp
      | some new => simp [hoverLogOk]
    | some old =>
      have hm := inv old hc
      cases found with
      | none => simp [hoverLogOk, hm]
      | some new =>
        by_cases e : old = new
        · simp [hoverLogOk, e]
        · simp [hoverLogOk, e, hm]

theorem hoverLogOk_run (c : ContainerImpl) (inputs : List MouseInput)
    (inv : ∀ h, c.hover_view_ = some h → HasChild c.children h = true) :
    hoverLogOk c.hover_view_ (c.run inputs).2 = true := by
  induction inputs generalizing c with
  | nil => simp [ContainerImpl.run, hoverLogOk]
  | cons i rest ih =>
    simp only [ContainerImpl.run]
    rw [hoverLogOk_step c i _ inv]
    exact ih _ (handle_hover_member c i)

theorem hoverProtocol_of_hoverLogOk (x : Nat) (log : List Event) (h : Option Nat)
    (ok : hoverLogOk h log = true) :
    hoverProtocol (decide (h = some x)) (hoverCallsOf x log) = true := by
  induction log generalizing h with
  | nil => simp [hoverCallsOf, hoverProtocol]
  | cons e rest ih =>
    cases e with
    | OnMouseEnter v =>
      simp only [hoverLogOk, Bool.and_eq_true] at ok
      have hn : h = none := by simpa using ok.1
      subst hn
      by_cases e : v = x
      · subst e
        simpa [hoverCallsOf, hoverProtocol] using ih _ ok.2
      · have := ih _ ok.2
        simpa [hoverCallsOf, hoverProtocol, e] using this
    | OnMouseLeave v =>
      simp only [hoverLogOk, Bool.and_eq_true, decide_eq_true_eq] at ok
      obtain ⟨hv, ok2⟩ := ok
      subst hv
      by_cases e : v = x
      · subst e
        simpa [hoverCallsOf, hoverProtocol] using ih _ ok2
      · have := ih _ ok2
        simpa [hoverCallsOf, hoverProtocol, e] using this
    | OnMouseMove v f p =>
      simp only [hoverLogOk, Bool.and_eq_true, decide_eq_true_eq] at ok
      obtain ⟨hv, ok2⟩ := ok
      subst hv
      by_cases e : v = x
      · subst e
        simpa [hoverCallsOf, hoverProtocol] using ih _ ok2
      · have := ih _ ok2
        simpa [hoverCallsOf, hoverProtocol, e] using this
    | OnMouseWheel _ _ _ _ _ => simpa [hoverCallsOf, hoverLogOk] using ih h (by simpa [hoverLogOk] using ok)
    | OnMouseClick _ _ _ _ => simpa [hoverCallsOf, hoverLogOk] using ih h (by simpa [hoverLogOk] using ok)
    | Draw _ _ _ => simpa [hoverCallsOf, hoverLogOk] using ih h (by simpa [hoverLogOk] using ok)
    | BaseDraw _ _ => simpa [hoverCallsOf, hoverLogOk] using ih h (by simpa [hoverLogOk] using ok)
    | OnDraw _ _ => simpa [hoverCallsOf, hoverLogOk] using ih h (by simpa [hoverLogOk] using ok)
    | Layout _ => simpa [hoverCallsOf, hoverLogOk] using ih h (by simpa [hoverLogOk] using ok)

theorem run_hover_member (c : ContainerImpl) (inputs : List MouseInput)
    (inv : ∀ h, c.hover_view_ = some h → HasChild c.children h = true) :
    ∀ h, (c.run inputs).1.hover_view_ = some h →
      HasChild (c.run inputs).1.children h = true := by
  induction inputs generalizing c with
  | nil => simpa [ContainerImpl.run] using inv
  | cons i rest ih =>
    simp only [ContainerImpl.run]
    exact ih _ (handle_hover_member c i)

theorem OnMouseMove_shape (c : ContainerImpl) (flags : Nat) (point : Point)
    (inv : ∀ h, c.hover_view_ = some h → HasChild c.children h = true) :
    (c.OnMouseMove flags point).2 =
      (match c.hover_view_, (c.FindChildFromPoint point).map ViewImpl.ptr with
       | some x, some y =>
         if x = y then [Event.OnMouseMove y flags point]
         else [Event.OnMouseLeave x, Event.OnMouseEnter y, Event.OnMouseMove y flags point]
       | some x, none => [Event.OnMouseLeave x]
       | none, some y => [Event.OnMouseEnter y, Event.OnMouseMove y flags point]
       | none, none => []) := by
  rw [OnMouseMove_log]
  generalize (c.FindChildFromPoint point).map ViewImpl.ptr = found
  cases hc : c.hover_view_ with
  | none => cases found <;> simp
  | some old =>
    have hm := inv old hc
    cases found with
    | none => simp [hm]
    | some new =>
      by_cases e : old = new
      · simp [e]
      · simp [e, hm]

/-- C1: on a container fresh from its constructor whose children stay the
same, for every sequence of `OnMouseMove` and `OnMouseLeave` calls, the
pointer calls each child `x` receives have the shape `(enter, move*, leave)*`
with a last group that may be unfinished; over all children at once, an enter
is only sent while no child is entered, and a leave or a move only goes to the
child that is entered; and in every state reached, a move that changes hover
from `a` to `b` sends leave to `a`, then enter to `b`, then the move to `b`. -/
theorem C1_hover_enter_move_leave (size_allocation : Rect) (is_visible : Bool)
    (children : List ViewImpl)
    (inputs : List MouseInput) (x : Nat) (flags : Nat) (point : Point) :
    hoverProtocol false
        (hoverCallsOf x ((ContainerImpl.create size_allocation is_visible children).run inputs).2) = true ∧
      hoverLogOk none ((ContainerImpl.create size_allocation is_visible children).run inputs).2 = true ∧
      (((ContainerImpl.create size_allocation is_visible children).run inputs).1.OnMouseMove flags point).2 =
        (match ((ContainerImpl.create size_allocation is_visible children).run inputs).1.hover_view_,
            (((ContainerImpl.create size_allocation is_visible children).run inputs).1.FindChildFromPoint
              point).map ViewImpl.ptr with
         | some a, some b =>
           if a = b then [Event.OnMouseMove b flags point]
           else [Event.OnMouseLeave a, Event.OnMouseEnter b, Event.OnMouseMove b flags point]
         | some a, none => [Event.OnMouseLeave a]
         | none, some b => [Event.OnMouseEnter b, Event.OnMouseMove b flags point]
         | none, none => []) := by
  have inv : ∀ h, (ContainerImpl.create size_allocation is_visible children).hover_view_ = some h →
      HasChild (ContainerImpl.create size_allocation is_visible children).children h = true := by
    intro h hh
    cases hh
  have ok := hoverLogOk_run _ inputs inv
  refine ⟨?_, ok, OnMouseMove_shape _ flags point (run_hover_member _ inputs inv)⟩
  simpa using hoverProtocol_of_hoverLogOk x _ none ok

theorem DrawChild_painter (c : ContainerImpl) (child : ViewImpl) (painter : PainterWin)
    (dirty : Rect) : (c.DrawChild child painter dirty).1 = painter := by
  unfold ContainerImpl.DrawChild
  by_cases hv : child.is_visible = true
  · by_cases he : ((child.GetClippedRect.sub c.size_allocation.OffsetFromOrigin).Intersect
        dirty).IsEmpty = true
    · simp [hv, he]
    · simp [hv, he, PainterWin.Save, PainterWin.TranslatePixel, PainterWin.Restore]
  · simp [hv]

theorem ForEach_Draw (c : ContainerImpl) (dirty : Rect) (cs : List ViewImpl)
    (painter : PainterWin) (log : List Event) :
    (ForEach (Draw.callback c dirty) cs (painter, log)).1 = painter ∧
      ∀ e, e ∈ (ForEach (Draw.callback c dirty) cs (painter, log)).2 ↔
        (e ∈ log ∨ ∃ ch ∈ cs, e ∈ (c.DrawChild ch painter dirty).2) := by
  induction cs generalizing log with
  | nil => simp [ForEach]
  | cons ch rest ih =>
    simp only [ForEach, Draw.callback, if_true, DrawChild_painter]
    refine ⟨(ih _).1, ?_⟩
    intro e
    rw [(ih _).2 e]
    simp only [List.mem_append, List.mem_cons, exists_eq_or_imp, or_assoc]

/-- C3, amended: if for every child at address `x` the clipped rect, moved
back by the origin of the allocation of the container, does not intersect the
incoming dirty rectangle, then `ContainerImpl::Draw` does not call `Draw` on
`x`, with any painting origin or dirty rectangle. -/
theorem C3_dirty_rect_pruning (c : ContainerImpl) (painter : PainterWin) (dirty : Rect)
    (x : Nat) (origin : Vector2d) (d : Rect)
    (pruned : ∀ ch ∈ c.children, ch.ptr = x →
      ((ch.GetClippedRect.sub c.size_allocation.OffsetFromOrigin).Intersect dirty).IsEmpty
        = true) :
    Event.Draw x origin d ∉ (c.Draw painter dirty).2 := by
  unfold ContainerImpl.Draw
  rw [(ForEach_Draw c dirty c.children painter _).2]
  rintro (h | ⟨ch, hch, h⟩)
  · simp [ViewImpl.Draw] at h
  · unfold ContainerImpl.DrawChild at h
    by_cases hv : ch.is_visible = true
    · by_cases hp : ch.ptr = x
      · simp [hv, pruned ch hch hp] at h
      · by_cases he : ((ch.GetClippedRect.sub c.size_allocation.OffsetFromOrigin).Intersect
            dirty).IsEmpty = true
        · simp [hv, he] at h
        · simp [hv, he] at h
          exact hp h.1.symm
    · simp [hv] at h

/-- C3 as the spec words it fails: in a container allocated at `[100,0,200,200]`
the clipped rect `[120,10,50,50]` of the child does not intersect the dirty
rectangle `[0,0,60,60]`, and `Draw` is still called on the child, because the
clipped rect is first moved back by the origin of the container. -/
theorem C3_counterexample :
    (nestedChild.GetClippedRect.Intersect ⟨0, 0, 60, 60⟩).IsEmpty = true ∧
      (nestedC.Draw ⟨⟨100, 0⟩, []⟩ ⟨0, 0, 60, 60⟩).2 =
        [Event.BaseDraw ⟨100, 0⟩ ⟨0, 0, 60, 60⟩, Event.OnDraw ⟨100, 0⟩ ⟨0, 0, 60, 60⟩,
          Event.Draw 1 ⟨120, 10⟩ ⟨0, 0, 40, 50⟩] := by
  decide

/-- C9, amended: for a container whose allocation has origin `(ox,oy)` and a
visible, non-pruned child whose allocation has origin `(cx,cy)`,
`ContainerImpl::Draw` calls `Draw` on the child under a painting origin moved
by `(cx-ox, cy-oy)` from the one handed in, so a point drawn at child-local
`(x,y)` is observed at `(cx-ox+x, cy-oy+y)` relative to the painter handed in;
converting that position back to child-local coordinates gives `(x,y)`; and
the painter is handed back as it came. -/
theorem C9_paint_coordinates (c : ContainerImpl) (child : ViewImpl) (painter : PainterWin)
    (dirty : Rect) (x y : Int) (member : child ∈ c.children)
    (visible : child.is_visible = true)
    (kept : ((child.GetClippedRect.sub c.size_allocation.OffsetFromOrigin).Intersect
      dirty).IsEmpty = false) :
    Event.Draw child.ptr
        ⟨painter.origin.x + (child.size_allocation.x - c.size_allocation.x),
          painter.origin.y + (child.size_allocation.y - c.size_allocation.y)⟩
        (((child.GetClippedRect.sub c.size_allocation.OffsetFromOrigin).Intersect dirty).sub
          ⟨child.size_allocation.x - c.size_allocation.x,
            child.size_allocation.y - c.size_allocation.y⟩) ∈ (c.Draw painter dirty).2 ∧
      PainterWin.observe
          ⟨⟨painter.origin.x + (child.size_allocation.x - c.size_allocation.x),
            painter.origin.y + (child.size_allocation.y - c.size_allocation.y)⟩,
            painter.origin :: painter.saved⟩ x y =
        ⟨painter.origin.x + (child.size_allocation.x - c.size_allocation.x + x),
          painter.origin.y + (child.size_allocation.y - c.size_allocation.y + y)⟩ ∧
      c.toChildLocal child
          ⟨child.size_allocation.x - c.size_allocation.x + x,
            child.size_allocation.y - c.size_allocation.y + y⟩ = ⟨x, y⟩ ∧
      (c.Draw painter dirty).1 = painter := by
  refine ⟨?_, ?_, ?_, ?_⟩
  · unfold ContainerImpl.Draw
    rw [(ForEach_Draw c dirty c.children painter _).2]
    refine Or.inr ⟨child, member, ?_⟩
    unfold ContainerImpl.DrawChild
    simp only [visible, kept, Bool.not_true, Bool.false_eq_true, if_false]
    simp [PainterWin.Save, PainterWin.TranslatePixel, Vector2d.add, Vector2d.sub,
      Rect.OffsetFromOrigin]
  · simp [PainterWin.observe, add_assoc]
  · simp [ContainerImpl.toChildLocal, Vector2d.sub, Rect.OffsetFromOrigin]
  · unfold ContainerImpl.Draw
    exact (ForEach_Draw c dirty c.children painter _).1

/-- C9 as the spec words it fails: with the container at origin `(100,0)` and
the child allocated at origin `(120,10)`, the child draws under a painting
origin moved by `(20,10)` from the one handed in, not by
`(100+120, 0+10)`. -/
theorem C9_counterexample :
    (nestedC.Draw ⟨⟨100, 0⟩, []⟩ ⟨0, 0, 60, 60⟩).2 =
        [Event.BaseDraw ⟨100, 0⟩ ⟨0, 0, 60, 60⟩, Event.OnDraw ⟨100, 0⟩ ⟨0, 0, 60, 60⟩,
          Event.Draw 1 ⟨100 + 20, 0 + 10⟩ ⟨0, 0, 40, 50⟩] ∧
      PainterWin.observe ⟨⟨100 + 20, 0 + 10⟩, [⟨100, 0⟩]⟩ 0 0 ≠
        ⟨100 + (nestedC.size_allocation.x + nestedChild.size_allocation.x + 0),
          0 + (nestedC.size_allocation.y + nestedChild.size_allocation.y + 0)⟩ := by
  decide

theorem handle_capture (w : TopLevelWindow) (i : WinInput) :
    (w.handle i).1.capture_view_ = w.capture_view_ := by
  cases i with
  | Move flags point =>
    simp only [TopLevelWindow.handle, TopLevelWindow.OnMouseMove]
    by_cases hm : w.mouse_in_window_ = true <;> cases hc : w.capture_view_ <;> simp [hm, hc]
  | Click message w_param l_param =>
    simp only [TopLevelWindow.handle, TopLevelWindow.OnMouseClick, TopLevelWindow.ReleaseCapture]
    by_cases hm : message = WM_LBUTTONUP
    · by_cases hp : w.platform_capture = some w.hwnd <;> simp [hm, hp]
    · simp [hm]

theorem after_capture (w : TopLevelWindow) (inputs : List WinInput) :
    (w.after inputs).capture_view_ = w.capture_view_ := by
  induction inputs generalizing w with
  | nil => rfl
  | cons i rest ih => simp only [TopLevelWindow.after, ih, handle_capture]

theorem handle_capturedShape (w : TopLevelWindow) (V : Nat) (i : WinInput)
    (hc : w.capture_view_ = some V) : capturedShape V (i, (w.handle i).2) := by
  cases i with
  | Move flags point =>
    simp only [capturedShape, TopLevelWindow.handle, TopLevelWindow.OnMouseMove]
    by_cases hm : w.mouse_in_window_ = true <;> simp [hm, hc]
  | Click message w_param l_param =>
    simp only [capturedShape, TopLevelWindow.handle, TopLevelWindow.OnMouseClick,
      TopLevelWindow.ReleaseCapture]
    by_cases hm : message = WM_LBUTTONUP
    · by_cases hp : w.platform_capture = some w.hwnd <;> simp [hm, hp]
    · simp [hm]

theorem run_capturedShape (w : TopLevelWindow) (V : Nat) (inputs : List WinInput)
    (hc : w.capture_view_ = some V) :
    ∀ e ∈ w.run inputs, capturedShape V e := by
  induction inputs generalizing w with
  | nil => simp [TopLevelWindow.run]
  | cons i rest ih =>
    intro e he
    simp only [TopLevelWindow.run, List.mem_cons] at he
    rcases he with rfl | he
    · exact handle_capturedShape w V i hc
    · exact ih _ ((handle_capture w i).trans hc) e he

/-- C2, amended: after `SetCapture(V)`, for every sequence of moves and clicks
with no capture-changed notification in between, `V` stays the capture
target, every `OnMouseMove` sends the move to `V` and never to the content
view (which, on the first move after the pointer was outside, only gets an
enter), and every `OnMouseClick` sends the click to the content view, which
routes it by hit-testing, and nothing to `V`. -/
theorem C2_capture_routes_moves (w : TopLevelWindow) (V : Nat) (inputs : List WinInput)
    (e : WinInput × List WinEvent) (he : e ∈ (w.SetCapture V).1.run inputs) :
    ((w.SetCapture V).1.after inputs).capture_view_ = some V ∧
      (match e.1 with
       | .Move flags point =>
         e.2 = [WinEvent.Send (Target.View V) (Call.OnMouseMove flags point)] ∨
           e.2 = [WinEvent.Send Target.ContentView Call.OnMouseEnter, WinEvent.TrackMouse true,
             WinEvent.Send (Target.View V) (Call.OnMouseMove flags point)]
       | .Click message w_param l_param =>
         e.2 = [WinEvent.Send Target.ContentView
             (Call.OnMouseClick message (w_param % 2 ^ 32)
               ⟨CR_GET_X_LPARAM l_param, CR_GET_Y_LPARAM l_param⟩)] ∨
           e.2 = [WinEvent.Send Target.ContentView
             (Call.OnMouseClick message (w_param % 2 ^ 32)
               ⟨CR_GET_X_LPARAM l_param, CR_GET_Y_LPARAM l_param⟩),
             WinEvent.PlatformReleaseCapture]) := by
  refine ⟨by rw [after_capture]; rfl, ?_⟩
  exact run_capturedShape _ V inputs rfl e he

/-- C2 as the spec words it fails: after `SetCapture(7)` a click at `(5,5)` is
sent to the content view and not to the view at address 7. -/
theorem C2_counterexample :
    ((idleWindow.SetCapture 7).1.OnMouseClick WM_LBUTTONDOWN 0 (5 + 5 * 65536)).2 =
        [WinEvent.Send Target.ContentView (Call.OnMouseClick WM_LBUTTONDOWN 0 ⟨5, 5⟩)] ∧
      WinEvent.Send (Target.View 7) (Call.OnMouseClick WM_LBUTTONDOWN 0 ⟨5, 5⟩) ∉
        ((idleWindow.SetCapture 7).1.OnMouseClick WM_LBUTTONDOWN 0 (5 + 5 * 65536)).2 := by
  decide

theorem SetCapture_held (w : TopLevelWindow) (view : Nat) :
    (w.SetCapture view).1.capture_view_ ≠ none →
      (w.SetCapture view).1.platform_capture = some (w.SetCapture view).1.hwnd := by
  intro _
  rfl

theorem OnCaptureChanged_held (w : TopLevelWindow) (window : Nat) :
    (w.OnCaptureChanged window).1.capture_view_ ≠ none →
      (w.OnCaptureChanged window).1.platform_capture =
        some (w.OnCaptureChanged window).1.hwnd := by
  intro h
  exfalso
  apply h
  unfold TopLevelWindow.OnCaptureChanged
  cases hc : w.capture_view_ with
  | none => simpa using hc
  | some _ => rfl

theorem OnMouseMove_held (w : TopLevelWindow) (flags : Nat) (point : Point)
    (held : w.capture_view_ ≠ none → w.platform_capture = some w.hwnd) :
    (w.OnMouseMove flags point).1.capture_view_ ≠ none →
      (w.OnMouseMove flags point).1.platform_capture =
        some (w.OnMouseMove flags point).1.hwnd := by
  unfold TopLevelWindow.OnMouseMove
  cases hc : w.capture_view_ <;> by_cases hm : w.mouse_in_window_ = true <;>
    simp [hc, hm] <;> simpa [hc] using held

theorem OnMouseClick_delivered_held (w : TopLevelWindow) (message w_param l_param : Nat)
    (held : w.capture_view_ ≠ none → w.platform_capture = some w.hwnd) :
    (deliverCaptureChanged (w.OnMouseClick message w_param l_param)).capture_view_ ≠ none →
      (deliverCaptureChanged (w.OnMouseClick message w_param l_param)).platform_capture =
        some (deliverCaptureChanged (w.OnMouseClick message w_param l_param)).hwnd := by
  unfold deliverCaptureChanged TopLevelWindow.OnMouseClick TopLevelWindow.ReleaseCapture
    TopLevelWindow.OnCaptureChanged
  by_cases hm : message = WM_LBUTTONUP
  · by_cases hp : w.platform_capture = some w.hwnd
    · cases hc : w.capture_view_ <;> simp [hm, hp, hc]
    · have hn : w.capture_view_ = none := by
        by_contra h
        exact hp (held h)
      simp [hm, hp, hn]
  · simpa [hm] using held

/-- C7: in every state where a recorded capture target implies that this
window holds the platform capture (the state `SetCapture` sets up and
`OnCaptureChanged` keeps), after `OnMouseClick` with `WM_LBUTTONUP` this
window does not hold the platform capture, whether or not a capture target
was recorded and whoever held the platform capture before; the platform
release is issued exactly when this window held it; once the resulting
capture-changed notification is delivered no capture target is recorded, and
the next move goes to the content view and to no captured view. For every
other message the window is unchanged and only the click is forwarded. -/
theorem C7_left_button_up_release (w : TopLevelWindow) (message w_param l_param : Nat)
    (flags : Nat) (point : Point)
    (held : w.capture_view_ ≠ none → w.platform_capture = some w.hwnd) :
    (w.OnMouseClick WM_LBUTTONUP w_param l_param).1.platform_capture ≠ some w.hwnd ∧
      (deliverCaptureChanged
        (w.OnMouseClick WM_LBUTTONUP w_param l_param)).platform_capture ≠ some w.hwnd ∧
      (WinEvent.PlatformReleaseCapture ∈ (w.OnMouseClick WM_LBUTTONUP w_param l_param).2 ↔
        w.platform_capture = some w.hwnd) ∧
      (deliverCaptureChanged
        (w.OnMouseClick WM_LBUTTONUP w_param l_param)).capture_view_ = none ∧
      ((deliverCaptureChanged (w.OnMouseClick WM_LBUTTONUP w_param l_param)).OnMouseMove
          flags point).2.getLast? =
        some (WinEvent.Send Target.ContentView (Call.OnMouseMove flags point)) ∧
      (if message = WM_LBUTTONUP then True
       else
        w.OnMouseClick message w_param l_param =
          (w, [WinEvent.Send Target.ContentView
            (Call.OnMouseClick message (w_param % 2 ^ 32)
              ⟨CR_GET_X_LPARAM l_param, CR_GET_Y_LPARAM l_param⟩)])) := by
  by_cases hp : w.platform_capture = some w.hwnd
  · refine ⟨?_, ?_, ?_, ?_, ?_, ?_⟩
    · simp [TopLevelWindow.OnMouseClick, TopLevelWindow.ReleaseCapture, hp]
    · cases hc : w.capture_view_ <;>
        simp [deliverCaptureChanged, TopLevelWindow.OnMouseClick,
          TopLevelWindow.ReleaseCapture, TopLevelWindow.OnCaptureChanged, hp, hc]
    · simp [TopLevelWindow.OnMouseClick, TopLevelWindow.ReleaseCapture, hp]
    · cases hc : w.capture_view_ <;>
        simp [deliverCaptureChanged, TopLevelWindow.OnMouseClick,
          TopLevelWindow.ReleaseCapture, TopLevelWindow.OnCaptureChanged, hp, hc]
    · cases hc : w.capture_view_ <;> by_cases hm : w.mouse_in_window_ = true <;>
        simp [deliverCaptureChanged, TopLevelWindow.OnMouseClick,
          TopLevelWindow.ReleaseCapture, TopLevelWindow.OnCaptureChanged,
          TopLevelWindow.OnMouseMove, hp, hc, hm]
    · by_cases hm : message = WM_LBUTTONUP
      · simp [hm]
      · simp [hm, TopLevelWindow.OnMouseClick]
  · have hn : w.capture_view_ = none := by
      by_contra h
      exact hp (held h)
    refine ⟨?_, ?_, ?_, ?_, ?_, ?_⟩
    · simp [TopLevelWindow.OnMouseClick, TopLevelWindow.ReleaseCapture, hp]
    · simp [deliverCaptureChanged, TopLevelWindow.OnMouseClick,
        TopLevelWindow.ReleaseCapture, hp]
    · simp [TopLevelWindow.OnMouseClick, TopLevelWindow.ReleaseCapture, hp]
    · simp [deliverCaptureChanged, TopLevelWindow.OnMouseClick,
        TopLevelWindow.ReleaseCapture, hp, hn]
    · by_cases hm : w.mouse_in_window_ = true <;>
        simp [deliverCaptureChanged, TopLevelWindow.OnMouseClick,
          TopLevelWindow.ReleaseCapture, TopLevelWindow.OnMouseMove, hp, hn, hm]
    · by_cases hm : message = WM_LBUTTONUP
      · simp [hm]
      · simp [hm, TopLevelWindow.OnMouseClick]

/-- Witness of C7: the view at address 7 captures on the idle window, then the
primary button is released at `(900,900)`; the capture is released, the
notification clears the target and the next move goes to the content view. -/
theorem C7_left_button_up_release_witness :
    ((idleWindow.SetCapture 7).1.capture_view_ ≠ none →
        (idleWindow.SetCapture 7).1.platform_capture = some (idleWindow.SetCapture 7).1.hwnd) ∧
      (((idleWindow.SetCapture 7).1.OnMouseClick WM_LBUTTONUP 0 0).2 =
          [WinEvent.Send Target.ContentView (Call.OnMouseClick WM_LBUTTONUP 0 ⟨0, 0⟩),
            WinEvent.PlatformReleaseCapture] ∧
        (deliverCaptureChanged
          ((idleWindow.SetCapture 7).1.OnMouseClick WM_LBUTTONUP 0 0)).capture_view_ = none ∧
        ((deliverCaptureChanged
          ((idleWindow.SetCapture 7).1.OnMouseClick WM_LBUTTONUP 0 0)).OnMouseMove 0
            ⟨900, 900⟩).2 =
          [WinEvent.Send Target.ContentView (Call.OnMouseMove 0 ⟨900, 900⟩)]) :=
  ⟨SetCapture_held idleWindow 7, by decide,
    (C7_left_button_up_release (idleWindow.SetCapture 7).1 WM_LBUTTONUP 0 0 0 ⟨900, 900⟩
      (SetCapture_held idleWindow 7)).2.2.2.1,
    by decide⟩

/-- Witness of C2: the view at address 7 captures, then a click and a move far
outside at `(900,900)`; the move goes to the view at address 7. -/
theorem C2_capture_routes_moves_witness :
    ((WinInput.Move 0 ⟨900, 900⟩,
        [WinEvent.Send (Target.View 7) (Call.OnMouseMove 0 ⟨900, 900⟩)]) ∈
      (idleWindow.SetCapture 7).1.run
        [WinInput.Click WM_LBUTTONDOWN 0 0, WinInput.Move 0 ⟨900, 900⟩]) ∧
      (((idleWindow.SetCapture 7).1.after
        [WinInput.Click WM_LBUTTONDOWN 0 0, WinInput.Move 0 ⟨900, 900⟩]).capture_view_ = some 7 ∧
        ([WinEvent.Send (Target.View 7) (Call.OnMouseMove 0 ⟨900, 900⟩)] =
            [WinEvent.Send (Target.View 7) (Call.OnMouseMove 0 ⟨900, 900⟩)] ∨
          [WinEvent.Send (Target.View 7) (Call.OnMouseMove 0 ⟨900, 900⟩)] =
            [WinEvent.Send Target.ContentView Call.OnMouseEnter, WinEvent.TrackMouse true,
              WinEvent.Send (Target.View 7) (Call.OnMouseMove 0 ⟨900, 900⟩)])) :=
  ⟨by decide,
    C2_capture_routes_moves idleWindow 7
      [WinInput.Click WM_LBUTTONDOWN 0 0, WinInput.Move 0 ⟨900, 900⟩]
      (WinInput.Move 0 ⟨900, 900⟩,
        [WinEvent.Send (Target.View 7) (Call.OnMouseMove 0 ⟨900, 900⟩)]) (by decide)⟩

theorem sceneC_B_pruned : ∀ ch ∈ sceneC.children, ch.ptr = 2 →
    ((ch.GetClippedRect.sub sceneC.size_allocation.OffsetFromOrigin).Intersect
      ⟨0, 0, 50, 20⟩).IsEmpty = true := by
  intro ch hch hp
  simp only [sceneC, ContainerImpl.create, List.mem_cons, List.mem_singleton,
    List.not_mem_nil, or_false] at hch
  rcases hch with rfl | rfl
  · exact absurd hp (by decide)
  · decide

/-- Witness of C3: container C of the scenario painted with the dirty rectangle
`[0,0,50,20]`; child B at `[50,0,50,50]` is not drawn. -/
theorem C3_dirty_rect_pruning_witness :
    (∀ ch ∈ sceneC.children, ch.ptr = 2 →
      ((ch.GetClippedRect.sub sceneC.size_allocation.OffsetFromOrigin).Intersect
        ⟨0, 0, 50, 20⟩).IsEmpty = true) ∧
      Event.Draw 2 ⟨50, 0⟩ ⟨0, 0, 50, 20⟩ ∉ (sceneC.Draw ⟨⟨0, 0⟩, []⟩ ⟨0, 0, 50, 20⟩).2 :=
  ⟨sceneC_B_pruned,
    C3_dirty_rect_pruning sceneC ⟨⟨0, 0⟩, []⟩ ⟨0, 0, 50, 20⟩ 2 ⟨50, 0⟩ ⟨0, 0, 50, 20⟩
      sceneC_B_pruned⟩

/-- Witness of C9: the container at `[100,0,200,200]` with its child at
`[120,10,50,50]`, painted with the dirty rectangle `[0,0,60,60]`. -/
theorem C9_paint_coordinates_witness :
    nestedChild ∈ nestedC.children ∧ nestedChild.is_visible = true ∧
      ((nestedChild.GetClippedRect.sub nestedC.size_allocation.OffsetFromOrigin).Intersect
        ⟨0, 0, 60, 60⟩).IsEmpty = false ∧
      (Event.Draw 1 ⟨120, 10⟩ ⟨0, 0, 40, 50⟩ ∈ (nestedC.Draw ⟨⟨100, 0⟩, []⟩ ⟨0, 0, 60, 60⟩).2 ∧
        PainterWin.observe ⟨⟨120, 10⟩, [⟨100, 0⟩]⟩ 3 4 = ⟨123, 14⟩ ∧
        nestedC.toChildLocal nestedChild ⟨23, 14⟩ = ⟨3, 4⟩ ∧
        (nestedC.Draw ⟨⟨100, 0⟩, []⟩ ⟨0, 0, 60, 60⟩).1 = ⟨⟨100, 0⟩, []⟩) :=
  ⟨List.mem_singleton.mpr rfl, rfl, by decide,
    C9_paint_coordinates nestedC nestedChild ⟨⟨100, 0⟩, []⟩ ⟨0, 0, 60, 60⟩ 3 4
      (List.mem_singleton.mpr rfl) rfl (by decide)⟩

/-- Witness of C1: the scenario of the spec, children A `[0,0,50,50]` then B
`[50,0,50,50]`; moves to `(10,10)` and `(60,10)` and a leave. -/
theorem C1_hover_enter_move_leave_witness :
    (sceneC.run [MouseInput.Move 0 ⟨10, 10⟩, MouseInput.Move 0 ⟨60, 10⟩, MouseInput.Leave]).2 =
        [Event.OnMouseEnter 1, Event.OnMouseMove 1 0 ⟨10, 10⟩, Event.OnMouseLeave 1,
          Event.OnMouseEnter 2, Event.OnMouseMove 2 0 ⟨60, 10⟩, Event.OnMouseLeave 2] ∧
      (sceneC.run [MouseInput.Move 0 ⟨10, 10⟩, MouseInput.Move 0 ⟨60, 10⟩,
        MouseInput.Leave]).1.hover_view_ = none ∧
      (hoverProtocol false (hoverCallsOf 1 (sceneC.run [MouseInput.Move 0 ⟨10, 10⟩]).2) = true ∧
        hoverLogOk none (sceneC.run [MouseInput.Move 0 ⟨10, 10⟩]).2 = true ∧
        ((sceneC.run [MouseInput.Move 0 ⟨10, 10⟩]).1.OnMouseMove 0 ⟨60, 10⟩).2 =
          [Event.OnMouseLeave 1, Event.OnMouseEnter 2, Event.OnMouseMove 2 0 ⟨60, 10⟩]) :=
  ⟨by decide, by decide,
    C1_hover_enter_move_leave ⟨0, 0, 100, 50⟩ true [viewA, viewB] [MouseInput.Move 0 ⟨10, 10⟩] 1 0
      ⟨60, 10⟩⟩

end nu
